import Mathlib

/-!
Shallow embedding of the roster manager's record model and of the
relationship-maintaining handlers, translated from the React/TypeScript
source (entity interfaces in `types.ts`; handlers in `Tags`,
`HouseholdDetail`, `HouseholdList`, `PersonProfile`, `Dashboard`,
`PeopleList`/`PersonForm`, `ProfileFields`, `usePermissions`).

Strings model the `_id` fields; numbers (`Nat`) model `createdAt`
timestamps (the code compares them through `Date.getTime()`).
Presentation-only scalar fields (names, email, phone, colors, labels,
note bodies) are omitted: no claim depends on them.
-/

namespace Roster

/-- The four organization roles (`types.ts`, `OrgMember.role`). -/
inductive Role where
  | owner
  | admin
  | member
  | viewer
deriving DecidableEq

/-- Person status (`types.ts`). -/
inductive Status where
  | active
  | inactive
  | visitor
deriving DecidableEq

/-- Field visibility tier (`types.ts`, `ProfileFieldDef.visibility`). -/
inductive Visibility where
  | public
  | staff_only
deriving DecidableEq

/-- Note visibility (`types.ts`, `Note.visibility`). -/
inductive NoteVisibility where
  | staff_only
  | org
deriving DecidableEq

/-- Household member relationship (`types.ts`). -/
inductive Relationship where
  | head
  | spouse
  | child
  | other
deriving DecidableEq

/-- `Person` (`types.ts`): `_id`, `status`, dynamic-relationship fields
`tagIds` and optional `householdId`, and `createdAt`. -/
structure Person where
  id : String
  status : Status
  householdId : Option String
  tagIds : List String
  createdAt : Nat
deriving DecidableEq

/-- `Tag` (`types.ts`): `_id`, `createdAt`; the `archived` flag is not in
the interface but is written by `TagEntity.update(tag._id, {archived: true})`. -/
structure Tag where
  id : String
  archived : Bool
  createdAt : Nat
deriving DecidableEq

/-- `Household` (`types.ts`); `archived` is written by
`Household.update(household._id, {archived: true})`. -/
structure Household where
  id : String
  archived : Bool
deriving DecidableEq

/-- `HouseholdMember` join row (`types.ts`); `archived` is written by
`HouseholdMember.update(member._id, {archived: true})`. -/
structure HouseholdMember where
  id : String
  householdId : String
  personId : String
  relationship : Relationship
  archived : Bool
deriving DecidableEq

/-- `Note` (`types.ts`). -/
structure Note where
  id : String
  personId : String
  visibility : NoteVisibility
  createdAt : Nat
deriving DecidableEq

/-- `ProfileFieldDef` (`types.ts`); `options`, `label` and `required` are
omitted (no claim depends on them). -/
structure ProfileFieldDef where
  key : String
  visibility : Visibility
  archived : Bool
  orderIndex : Nat
deriving DecidableEq

/-- The record store of one organization: the collections returned by the
entity `list()` calls, in their response order. -/
structure StoreState where
  people : List Person
  tags : List Tag
  households : List Household
  members : List HouseholdMember
deriving DecidableEq

/-- Error taxonomy of the spec's result envelope. The embedded handlers
return `Except CrmError StoreState`: `.ok` is `success=true`. -/
inductive CrmError where
  | ConflictError
  | ValidationError
  | ReferenceError
deriving DecidableEq

/-! ### Entity CRUD writes

Modelled from the spec: the entity classes (`entities/Person`,
`entities/Tag`, ...) are repository code not under `src/` — only their
callers are. Per §4.2 the per-entity `update` is a partial merge (only
supplied attributes change, one row targeted by id); the handlers below
supply exactly one attribute per call, so each write is embedded as a
one-field row update. -/

/-- `Person.update(personId, { householdId })`. -/
def updatePersonHouseholdId (people : List Person) (personId : String)
    (hid : Option String) : List Person :=
  people.map fun p => if p.id = personId then { p with householdId := hid } else p

/-- `Person.update(person._id, { tagIds: updatedTagIds })` as issued by
`deleteTag` for every person whose `tagIds` contains the tag. -/
def removeTagRefs (people : List Person) (tagId : String) : List Person :=
  people.map fun p =>
    if tagId ∈ p.tagIds then { p with tagIds := p.tagIds.filter (fun t => t != tagId) } else p

/-- `TagEntity.update(tag._id, { archived: true })`. -/
def archiveTagRow (tags : List Tag) (tagId : String) : List Tag :=
  tags.map fun t => if t.id = tagId then { t with archived := true } else t

/-- `HouseholdMember.update(member._id, { archived: true })`. -/
def archiveMemberRow (members : List HouseholdMember) (memberId : String) :
    List HouseholdMember :=
  members.map fun m => if m.id = memberId then { m with archived := true } else m

/-- `Household.update(household._id, { archived: true })`. -/
def archiveHouseholdRow (households : List Household) (hid : String) : List Household :=
  households.map fun h => if h.id = hid then { h with archived := true } else h

/-! ### Integrity-affecting handlers (the code under `src/`) -/

/-- `deleteTag` (Tags page), first phase: for each person referencing the
tag, write `tagIds` without it. -/
def removeTagRefsState (s : StoreState) (tagId : String) : StoreState :=
  { s with people := removeTagRefs s.people tagId }

/-- `deleteTag` (Tags page), both phases in source order: cascade the
reference removal, then archive the tag row. -/
def deleteTagState (s : StoreState) (tagId : String) : StoreState :=
  let s1 := removeTagRefsState s tagId
  { s1 with tags := archiveTagRow s1.tags tagId }

/-- `deleteTag` as seen by the caller: it has no failure branch of its own
(every path ends in the success message). -/
def deleteTag (s : StoreState) (tagId : String) : Except CrmError StoreState :=
  Except.ok (deleteTagState s tagId)

/-- Add path of `handleAddEditMember` (HouseholdDetail, `editingMember`
undefined): `HouseholdMember.create({personId, relationship, householdId: id})`
followed by `Person.update(values.personId, { householdId: id })`. No
conflict check is performed on the person's current household. -/
def handleAddMemberState (s : StoreState) (newMemberId personId householdId : String)
    (rel : Relationship) : StoreState :=
  let newMember : HouseholdMember :=
    { id := newMemberId, householdId := householdId, personId := personId,
      relationship := rel, archived := false }
  let s1 : StoreState := { s with members := s.members ++ [newMember] }
  { s1 with people := updatePersonHouseholdId s1.people personId (some householdId) }

/-- `handleAddEditMember` add path as seen by the caller: on the happy path
of the two CRUD calls it always succeeds. -/
def handleAddMember (s : StoreState) (newMemberId personId householdId : String)
    (rel : Relationship) : Except CrmError StoreState :=
  Except.ok (handleAddMemberState s newMemberId personId householdId rel)

/-- `handleRemoveMember` (HouseholdDetail): archive the member row, then
clear the person's `householdId`. The code ignores the `success` flag of
both responses and has no transaction: `ok1`/`ok2` say whether each backend
write took effect; a failed first write does not stop or roll back the
second. -/
def handleRemoveMemberState (s : StoreState) (memberId personId : String)
    (ok1 ok2 : Bool) : StoreState :=
  let s1 := if ok1 then { s with members := archiveMemberRow s.members memberId } else s
  if ok2 then { s1 with people := updatePersonHouseholdId s1.people personId none } else s1

/-- `handleDelete` (HouseholdList): archives the household row only — no
member check, no cascade, no cascade flag in its interface. -/
def handleDeleteHouseholdState (s : StoreState) (hid : String) : StoreState :=
  { s with households := archiveHouseholdRow s.households hid }

/-- `handleDelete` (HouseholdList) as seen by the caller: succeeds whenever
the single `Household.update` does. -/
def handleDeleteHousehold (s : StoreState) (hid : String) : Except CrmError StoreState :=
  Except.ok (handleDeleteHouseholdState s hid)

/-! ### Derived views and access filtering -/

/-- Stable descending sort on a `Nat` key. JavaScript `Array.prototype.sort`
is stable, so with comparator `(a, b) => key(b) - key(a)` it yields the
unique stable descending order, which `List.insertionSort` with
`key b ≤ key a` computes. -/
def sortDescBy {α : Type} (key : α → Nat) (l : List α) : List α :=
  l.insertionSort (fun a b => key b ≤ key a)

/-- `usageCount` / dashboard `count`: `people.filter(p => p.tagIds.includes(tag._id)).length`. -/
def tagUsageCount (people : List Person) (tagId : String) : Nat :=
  (people.filter fun p => p.tagIds.contains tagId).length

/-- A tag paired with its usage count (`TagWithUsage` / dashboard `topTags`
element). -/
structure TagWithCount where
  tag : Tag
  count : Nat
deriving DecidableEq

/-- Dashboard `topTags` before `slice(0, 5)`:
`tags.map(tag => ({...tag, count})).sort((a, b) => b.count - a.count)`. -/
def rankedTags (tags : List Tag) (people : List Person) : List TagWithCount :=
  sortDescBy (fun x => x.count)
    (tags.map fun t => { tag := t, count := tagUsageCount people t.id })

/-- Dashboard `topTags`: the ranked list cut by `.slice(0, 5)`. -/
def topTags (tags : List Tag) (people : List Person) : List TagWithCount :=
  (rankedTags tags people).take 5

/-- `personNotes` (PersonProfile `loadData`):
`notes.filter(n => n.personId === id).sort((a, b) => b.createdAt - a.createdAt)`.
No role or visibility enters the computation. -/
def personNotes (notes : List Note) (personId : String) : List Note :=
  sortDescBy (fun n => n.createdAt) (notes.filter fun n => n.personId == personId)

/-- Dashboard `recentNotes`: `notesResponse.data.slice(0, 10)` — again no
role or visibility filtering. -/
def recentNotes (notes : List Note) : List Note :=
  notes.take 10

/-- `visibleFields` (PersonProfile `loadData` and PersonForm `loadData`):
`fields.filter(f => !f.archived && (f.visibility === 'public' || userRole !== 'viewer'))`. -/
def visibleFields (fields : List ProfileFieldDef) (role : Role) : List ProfileFieldDef :=
  fields.filter fun f =>
    !f.archived && (f.visibility == Visibility.public || !(role == Role.viewer))

/-- `availablePeople` (HouseholdDetail) when no member is being edited:
people with no household. -/
def availablePeople (people : List Person) : List Person :=
  people.filter fun p => p.householdId == none

/-! ### usePermissions (`hooks/usePermissions.ts`) -/

/-- `canView`: all roles can view. -/
def canView (_role : Role) : Bool := true

/-- `canEdit`: `['owner', 'admin', 'member'].includes(userRole)`. -/
def canEdit (role : Role) : Bool :=
  [Role.owner, Role.admin, Role.member].contains role

/-- `canDelete`: `['owner', 'admin', 'member'].includes(userRole)`. -/
def canDelete (role : Role) : Bool :=
  [Role.owner, Role.admin, Role.member].contains role

/-- `canManageSettings`: `['owner', 'admin'].includes(userRole)`. -/
def canManageSettings (role : Role) : Bool :=
  [Role.owner, Role.admin].contains role

/-- `canViewStaffOnly`: `['owner', 'admin', 'member'].includes(userRole)`. -/
def canViewStaffOnly (role : Role) : Bool :=
  [Role.owner, Role.admin, Role.member].contains role

/-- `canManageOrganization`: `userRole === 'owner'`. -/
def canManageOrganization (role : Role) : Bool :=
  role == Role.owner

/-! ### Observations on a store state -/

/-- The `householdId` of the person with the given id, when the person exists. -/
def personHouseholdOf (s : StoreState) (personId : String) : Option (Option String) :=
  (s.people.find? fun p => p.id == personId).map Person.householdId

/-- The `archived` flag of the household with the given id. -/
def householdArchivedOf (s : StoreState) (hid : String) : Option Bool :=
  (s.households.find? fun h => h.id == hid).map Household.archived

/-- The `archived` flag of the member row with the given id. -/
def memberArchivedOf (s : StoreState) (memberId : String) : Option Bool :=
  (s.members.find? fun m => m.id == memberId).map HouseholdMember.archived

/-- All member rows of one household (archived or not). -/
def membersOfHousehold (s : StoreState) (hid : String) : List HouseholdMember :=
  s.members.filter fun m => m.householdId == hid

/-- The active member rows linking one household and one person. -/
def activeMemberRowsFor (s : StoreState) (hid personId : String) : List HouseholdMember :=
  s.members.filter fun m => !m.archived && m.householdId == hid && m.personId == personId

/-- No person's `tagIds` contains the given tag id. -/
def noTagRefs (s : StoreState) (tagId : String) : Bool :=
  s.people.all fun p => !(p.tagIds.contains tagId)

/-- Every tag row carrying the given id is archived. -/
def tagArchivedHere (s : StoreState) (tagId : String) : Bool :=
  s.tags.all fun t => !(t.id == tagId) || t.archived

/-- Every member row carrying the given id is archived. -/
def memberRowArchived (s : StoreState) (memberId : String) : Bool :=
  s.members.all fun m => !(m.id == memberId) || m.archived

/-- Every person carrying the given id has the given `householdId`. -/
def personHouseholdIs (s : StoreState) (personId : String) (h : Option String) : Bool :=
  s.people.all fun p => !(p.id == personId) || p.householdId == h

/-! ### The spec's referential-integrity invariant (§8 / §4.3, claim C1) -/

/-- A tag id resolves to a live (non-archived) tag. -/
def resolvesTag (tags : List Tag) (tid : String) : Bool :=
  tags.any fun t => t.id == tid && !t.archived

/-- A household id resolves to a live (non-archived) household. -/
def resolvesHousehold (hs : List Household) (hid : String) : Bool :=
  hs.any fun h => h.id == hid && !h.archived

/-- No dangling reference: every stored relationship id resolves to a live
entity or is unset. -/
def noDanglingRefs (s : StoreState) : Bool :=
  (s.people.all fun p =>
    (p.tagIds.all fun tid => resolvesTag s.tags tid) &&
    (match p.householdId with
     | none => true
     | some hid => resolvesHousehold s.households hid)) &&
  (s.members.all fun m =>
    m.archived ||
      (resolvesHousehold s.households m.householdId &&
       (s.people.any fun p => p.id == m.personId)))

/-- `Person.householdId` is set iff exactly one matching active
`HouseholdMember` row exists, and active rows agree with the person. -/
def householdLinkConsistent (s : StoreState) : Bool :=
  (s.people.all fun p =>
    match p.householdId with
    | none => s.members.all fun m => m.archived || !(m.personId == p.id)
    | some hid => (activeMemberRowsFor s hid p.id).length == 1) &&
  (s.members.all fun m =>
    m.archived ||
      (s.people.all fun p => !(p.id == m.personId) || p.householdId == some m.householdId))

/-! ### Concrete store states used by the individual claims -/

/-- C1 state: one household with one active member. -/
def sC1 : StoreState :=
  { people := [{ id := "p1", status := Status.active, householdId := some "h1",
                 tagIds := [], createdAt := 0 }],
    tags := [],
    households := [{ id := "h1", archived := false }],
    members := [{ id := "m1", householdId := "h1", personId := "p1",
                  relationship := Relationship.head, archived := false }] }

/-- C3 state: person `p1` already belongs to household `hA`; `hB` exists. -/
def mC3 : HouseholdMember :=
  { id := "mA", householdId := "hA", personId := "p1",
    relationship := Relationship.head, archived := false }

/-- C3 state, full store. -/
def sC3 : StoreState :=
  { people := [{ id := "p1", status := Status.active, householdId := some "hA",
                 tagIds := [], createdAt := 0 }],
    tags := [],
    households := [{ id := "hA", archived := false }, { id := "hB", archived := false }],
    members := [mC3] }

/-- C4 state: person `p4` is the sole member of household `h4`. -/
def sC4 : StoreState :=
  { people := [{ id := "p4", status := Status.active, householdId := some "h4",
                 tagIds := [], createdAt := 0 }],
    tags := [],
    households := [{ id := "h4", archived := false }],
    members := [{ id := "m4", householdId := "h4", personId := "p4",
                  relationship := Relationship.head, archived := false }] }

/-- C5 state: household `h5` still has the active member `p5`. -/
def sC5 : StoreState :=
  { people := [{ id := "p5", status := Status.active, householdId := some "h5",
                 tagIds := [], createdAt := 0 }],
    tags := [],
    households := [{ id := "h5", archived := false }],
    members := [{ id := "m5", householdId := "h5", personId := "p5",
                  relationship := Relationship.spouse, archived := false }] }

/-- C6 note: a staff-only note attached to person `p1`. -/
def nC6 : Note :=
  { id := "n1", personId := "p1", visibility := NoteVisibility.staff_only, createdAt := 0 }

/-- C7 tag created earlier. -/
def tC7A : Tag := { id := "tA", archived := false, createdAt := 100 }

/-- C7 tag created later. -/
def tC7B : Tag := { id := "tB", archived := false, createdAt := 200 }

/-- C7 person referencing both tags, so both usage counts are 1. -/
def pC7 : Person :=
  { id := "p7", status := Status.active, householdId := none,
    tagIds := ["tA", "tB"], createdAt := 0 }

/-- C8 field with `orderIndex` 0, listed second. -/
def fC8 : ProfileFieldDef :=
  { key := "f", visibility := Visibility.public, archived := false, orderIndex := 0 }

/-- C8 field with `orderIndex` 1, listed first. -/
def gC8 : ProfileFieldDef :=
  { key := "g", visibility := Visibility.public, archived := false, orderIndex := 1 }

/-- C9 state: tag `t9` is already archived and no person references it. -/
def sC9 : StoreState :=
  { people := [{ id := "p9", status := Status.active, householdId := none,
                 tagIds := ["t8"], createdAt := 0 }],
    tags := [{ id := "t9", archived := true, createdAt := 0 },
             { id := "t8", archived := false, createdAt := 1 }],
    households := [],
    members := [] }

/-! ### Shared lemmas about the stable descending sort -/

/-- The sort permutes its input. -/
theorem sortDescBy_perm {α : Type} (key : α → Nat) (l : List α) :
    List.Perm (sortDescBy key l) l :=
  List.perm_insertionSort _ l

/-- Sorting does not change membership. -/
theorem mem_sortDescBy {α : Type} (key : α → Nat) (l : List α) (x : α) :
    x ∈ sortDescBy key l ↔ x ∈ l :=
  (sortDescBy_perm key l).mem_iff

/-- The output is sorted with keys descending. -/
theorem sortDescBy_sorted {α : Type} (key : α → Nat) (l : List α) :
    (sortDescBy key l).Sorted (fun a b => key b ≤ key a) := by
  haveI : IsTotal α (fun a b => key b ≤ key a) := ⟨fun a b => Nat.le_total (key b) (key a)⟩
  haveI : IsTrans α (fun a b => key b ≤ key a) := ⟨fun _ _ _ h1 h2 => Nat.le_trans h2 h1⟩
  exact List.sorted_insertionSort _ l

/-- Stability: the elements of any one key value come out in exactly their
input order. -/
theorem sortDescBy_filter_key {α : Type} (key : α → Nat) (l : List α) (c : Nat) :
    (sortDescBy key l).filter (fun x => key x == c) = l.filter (fun x => key x == c) := by
  have hself : (l.filter (fun x => key x == c)).filter (fun x => key x == c)
      = l.filter (fun x => key x == c) :=
    List.filter_eq_self.mpr fun a ha => (List.mem_filter.mp ha).2
  have hpw : (l.filter (fun x => key x == c)).Pairwise (fun a b => key b ≤ key a) := by
    refine List.pairwise_of_forall_mem_list ?_
    intro a ha b hb
    have ha0 : (key a == c) = true := (List.mem_filter.mp ha).2
    have hb0 : (key b == c) = true := (List.mem_filter.mp hb).2
    have ha' : key a = c := by simpa using ha0
    have hb' : key b = c := by simpa using hb0
    omega
  have hsub : List.Sublist (l.filter (fun x => key x == c)) (sortDescBy key l) :=
    List.sublist_insertionSort hpw (List.filter_sublist l)
  have hsub2 : List.Sublist (l.filter (fun x => key x == c))
      ((sortDescBy key l).filter (fun x => key x == c)) := by
    have h := hsub.filter (fun x => key x == c)
    rwa [hself] at h
  have hlen : ((sortDescBy key l).filter (fun x => key x == c)).length
      = (l.filter (fun x => key x == c)).length :=
    ((sortDescBy_perm key l).filter _).length_eq
  exact (hsub2.eq_of_length hlen.symm).symm

/-! ### Claim theorems -/

/-- C1: the household↔member agreement and the no-dangling-reference rule
are not preserved by the code: `handleDelete` on `HouseholdList` archives a
household that still has an active member, leaving `Person.householdId`
pointing at an archived household (the state `sC1` satisfies the invariant
before the call and violates it after). -/
theorem C1_integrity_broken_by_household_delete :
    householdLinkConsistent sC1 = true
    ∧ noDanglingRefs sC1 = true
    ∧ handleDeleteHousehold sC1 "h1" = Except.ok (handleDeleteHouseholdState sC1 "h1")
    ∧ noDanglingRefs (handleDeleteHouseholdState sC1 "h1") = false
    ∧ personHouseholdOf (handleDeleteHouseholdState sC1 "h1") "p1" = some (some "h1")
    ∧ householdArchivedOf (handleDeleteHouseholdState sC1 "h1") "h1" = some true :=
  ⟨by decide, by decide, rfl, by decide, by decide, by decide⟩

/-- C5: deleting household `h5`, which still has one active member row,
succeeds (no `ConflictError`; the handler takes no cascade flag at all),
archives the household, and leaves the member row and the person's
`householdId` untouched. -/
theorem C5_household_delete_orphans_members :
    (activeMemberRowsFor sC5 "h5" "p5").length = 1
    ∧ handleDeleteHousehold sC5 "h5" = Except.ok (handleDeleteHouseholdState sC5 "h5")
    ∧ householdArchivedOf (handleDeleteHouseholdState sC5 "h5") "h5" = some true
    ∧ (activeMemberRowsFor (handleDeleteHouseholdState sC5 "h5") "h5" "p5").length = 1
    ∧ personHouseholdOf (handleDeleteHouseholdState sC5 "h5") "p5" = some (some "h5") :=
  ⟨by decide, rfl, by decide, by decide, by decide⟩

/-- C6 counterexample: a `staff_only` note is returned both by the person's
note list and by the dashboard's recent-note list; the computations take no
role argument at all, so the same lists reach a `viewer`. -/
theorem C6_counterexample :
    nC6.visibility = NoteVisibility.staff_only
    ∧ nC6 ∈ personNotes [nC6] "p1"
    ∧ nC6 ∈ recentNotes [nC6] := by
  decide

/-- C6 amended: the note lists are computed from `personId` (and creation
time) alone — membership is independent of note visibility and of the
caller's role, so `staff_only` notes are included for every role. -/
theorem C6_note_lists_ignore_visibility (notes : List Note) (personId : String) (n : Note) :
    n ∈ personNotes notes personId ↔ n ∈ notes ∧ n.personId = personId := by
  unfold personNotes
  rw [mem_sortDescBy]
  simp [List.mem_filter]

/-- C10: the role→capability mapping of `usePermissions` is exact: every
role can view; edit, delete and staff-only visibility are granted exactly
to owner, admin and member; settings management exactly to owner and
admin; organization management exactly to owner. -/
theorem C10_permissions_exact (r : Role) :
    canView r = true
    ∧ (canEdit r = true ↔ r = Role.owner ∨ r = Role.admin ∨ r = Role.member)
    ∧ (canDelete r = true ↔ r = Role.owner ∨ r = Role.admin ∨ r = Role.member)
    ∧ (canViewStaffOnly r = true ↔ r = Role.owner ∨ r = Role.admin ∨ r = Role.member)
    ∧ (canManageSettings r = true ↔ r = Role.owner ∨ r = Role.admin)
    ∧ (canManageOrganization r = true ↔ r = Role.owner) := by
  cases r <;> decide

/-- C7 counterexample: tags `tB` (created later) and `tA` (created earlier)
both have usage count 1; the dashboard ranks `tB` first because the stable
sort keeps the tag-list order `[tB, tA]` — the tie is not broken by the
earlier `createdAt`. -/
theorem C7_counterexample :
    topTags [tC7B, tC7A] [pC7]
      = [{ tag := tC7B, count := 1 }, { tag := tC7A, count := 1 }]
    ∧ tC7A.createdAt < tC7B.createdAt := by
  decide

/-- C7 amended: `topTags` is the 5-element prefix of the usage-ranked tag
list: counts are descending, every shown tag's count is at least every
dropped tag's count, the ranking permutes the counted tag list, and ties
between equal counts keep the tag-list order (stable sort) rather than
being broken by `createdAt`. -/
theorem C7_top_tags_ranking (tags : List Tag) (people : List Person) :
    (topTags tags people).Sorted (fun a b : TagWithCount => b.count ≤ a.count)
    ∧ (∀ x ∈ topTags tags people, ∀ y ∈ (rankedTags tags people).drop 5,
        TagWithCount.count y ≤ TagWithCount.count x)
    ∧ List.Perm (rankedTags tags people)
        (tags.map fun t => { tag := t, count := tagUsageCount people t.id })
    ∧ (∀ c, (rankedTags tags people).filter (fun x => x.count == c)
        = (tags.map fun t => ({ tag := t, count := tagUsageCount people t.id } : TagWithCount)).filter
            (fun x => x.count == c)) := by
  have hsorted : (rankedTags tags people).Sorted (fun a b : TagWithCount => b.count ≤ a.count) :=
    sortDescBy_sorted (fun x : TagWithCount => x.count) _
  refine ⟨?_, ?_, sortDescBy_perm _ _, fun c => sortDescBy_filter_key _ _ c⟩
  · exact hsorted.sublist (List.take_sublist 5 _)
  · intro x hx y hy
    exact hsorted.rel_of_mem_take_of_mem_drop hx hy

/-- C8 counterexample: two live public fields arrive in the list order
`[g, f]` with `orderIndex` 1 and 0; `visibleFields` returns them in that
same order, which is not ascending `orderIndex` order. -/
theorem C8_counterexample :
    visibleFields [gC8, fC8] Role.viewer = [gC8, fC8]
    ∧ (visibleFields [gC8, fC8] Role.viewer).map ProfileFieldDef.orderIndex = [1, 0]
    ∧ ¬ ((visibleFields [gC8, fC8] Role.viewer).map ProfileFieldDef.orderIndex).Sorted Nat.le := by
  refine ⟨by decide, by decide, fun h => ?_⟩
  have e : (visibleFields [gC8, fC8] Role.viewer).map ProfileFieldDef.orderIndex = [1, 0] := by
    decide
  rw [e] at h
  exact absurd (List.rel_of_sorted_cons h 0 (by simp)) (Nat.not_succ_le_zero 0)

/-- C8 amended: `visibleFields` contains exactly the non-archived fields
that are public or shown to a non-viewer role, in the order of the
underlying field-list response (the filter preserves relative order); it
does not re-sort by `orderIndex`. -/
theorem C8_visible_fields_filter (fields : List ProfileFieldDef) (role : Role)
    (f : ProfileFieldDef) :
    (f ∈ visibleFields fields role ↔
      f ∈ fields ∧ f.archived = false
        ∧ (f.visibility = Visibility.public ∨ role ≠ Role.viewer))
    ∧ List.Sublist (visibleFields fields role) fields := by
  constructor
  · simp [visibleFields, List.mem_filter, and_assoc, beq_iff_eq, beq_eq_false_iff_ne]
  · exact List.filter_sublist fields

/-- C2: archiving a tag first rewrites every referencing person's `tagIds`
without the tag — at that intermediate point the tag rows are still
untouched — and only then marks the tag archived; afterwards no person
references the tag id and every tag row with that id is archived. -/
theorem C2_tag_archive_cascade (s : StoreState) (tagId : String) :
    noTagRefs (removeTagRefsState s tagId) tagId = true
    ∧ (removeTagRefsState s tagId).tags = s.tags
    ∧ noTagRefs (deleteTagState s tagId) tagId = true
    ∧ tagArchivedHere (deleteTagState s tagId) tagId = true := by
  have href : noTagRefs (removeTagRefsState s tagId) tagId = true := by
    simp only [noTagRefs, removeTagRefsState, removeTagRefs, List.all_eq_true, List.mem_map]
    rintro x ⟨p, hp, rfl⟩
    by_cases h : tagId ∈ p.tagIds
    · simp [h, List.mem_filter]
    · simp [h]
  refine ⟨href, rfl, href, ?_⟩
  simp only [tagArchivedHere, deleteTagState, removeTagRefsState, archiveTagRow,
    List.all_eq_true, List.mem_map]
  rintro x ⟨t, ht, rfl⟩
  by_cases h : t.id = tagId
  · simp [h]
  · simp [h]

/-- C3 counterexample: person `p1` already belongs to household `hA`, yet
adding them to `hB` succeeds instead of failing with `ConflictError`, and
`p1`'s `householdId` moves from `hA` to `hB` while `hA`'s member row stays
behind — membership is not left unchanged. -/
theorem C3_counterexample :
    handleAddMember sC3 "m2" "p1" "hB" Relationship.other
      = Except.ok (handleAddMemberState sC3 "m2" "p1" "hB" Relationship.other)
    ∧ personHouseholdOf sC3 "p1" = some (some "hA")
    ∧ personHouseholdOf (handleAddMemberState sC3 "m2" "p1" "hB" Relationship.other) "p1"
      = some (some "hB")
    ∧ membersOfHousehold (handleAddMemberState sC3 "m2" "p1" "hB" Relationship.other) "hA"
      = [mC3] :=
  ⟨rfl, by decide, by decide, by decide⟩

/-- C3 amended: the add-member handler performs no conflict check and never
fails with `ConflictError`; whatever household a person currently belongs
to, the call succeeds, overwrites the person's `householdId` with the new
household, and leaves any other household's member rows in place. -/
theorem C3_add_member_unchecked (s : StoreState)
    (newMemberId personId householdId otherHousehold : String) (rel : Relationship)
    (hne : otherHousehold ≠ householdId) :
    handleAddMember s newMemberId personId householdId rel
      = Except.ok (handleAddMemberState s newMemberId personId householdId rel)
    ∧ personHouseholdIs (handleAddMemberState s newMemberId personId householdId rel)
        personId (some householdId) = true
    ∧ membersOfHousehold (handleAddMemberState s newMemberId personId householdId rel)
        otherHousehold = membersOfHousehold s otherHousehold := by
  refine ⟨rfl, ?_, ?_⟩
  · simp only [personHouseholdIs, handleAddMemberState, updatePersonHouseholdId,
      List.all_eq_true, List.mem_map]
    rintro x ⟨p, hp, rfl⟩
    by_cases h : p.id = personId
    · simp [h]
    · simp [h]
  · simp only [membersOfHousehold, handleAddMemberState, List.filter_append]
    have : (householdId == otherHousehold) = false := by
      simpa using fun h => hne h.symm
    simp [this]

/-- C3 amended, witness at the concrete store `sC3`. -/
theorem C3_add_member_unchecked_witness :
    ("hA" : String) ≠ "hB"
    ∧ membersOfHousehold (handleAddMemberState sC3 "m2" "p1" "hB" Relationship.other) "hA"
      = membersOfHousehold sC3 "hA" :=
  ⟨by decide,
   (C3_add_member_unchecked sC3 "m2" "p1" "hB" "hA" Relationship.other (by decide)).2.2⟩

/-- C4 counterexample: in store `sC4`, if the member-row write fails (its
`success` flag is ignored) while the `householdId` write goes through, the
handler ends with member row `m4` still active although person `p4`'s
`householdId` is unset — exactly the partial state the claim says is rolled
back; the pre-state satisfied the member↔household agreement and the
post-state does not. -/
theorem C4_counterexample :
    memberArchivedOf (handleRemoveMemberState sC4 "m4" "p4" false true) "m4" = some false
    ∧ personHouseholdOf (handleRemoveMemberState sC4 "m4" "p4" false true) "p4" = some none
    ∧ householdLinkConsistent sC4 = true
    ∧ householdLinkConsistent (handleRemoveMemberState sC4 "m4" "p4" false true) = false := by
  decide

/-- C4 amended: removal issues the two writes sequentially with no
transaction. When both backend writes take effect, the member row is
archived and the person's `householdId` cleared; each write applies
independently of the other's outcome (a failed write is neither retried
nor rolled back, and does not stop the other). -/
theorem C4_remove_member_no_transaction (s : StoreState) (memberId personId : String) :
    memberRowArchived (handleRemoveMemberState s memberId personId true true) memberId = true
    ∧ personHouseholdIs (handleRemoveMemberState s memberId personId true true)
        personId none = true
    ∧ handleRemoveMemberState s memberId personId false true
      = { s with people := updatePersonHouseholdId s.people personId none }
    ∧ handleRemoveMemberState s memberId personId true false
      = { s with members := archiveMemberRow s.members memberId } := by
  refine ⟨?_, ?_, rfl, rfl⟩
  · simp only [memberRowArchived, handleRemoveMemberState, archiveMemberRow, if_true,
      List.all_eq_true, List.mem_map]
    rintro x ⟨m, hm, rfl⟩
    by_cases h : m.id = memberId
    · simp [h]
    · simp [h]
  · simp only [personHouseholdIs, handleRemoveMemberState, updatePersonHouseholdId, if_true,
      List.all_eq_true, List.mem_map]
    rintro x ⟨p, hp, rfl⟩
    by_cases h : p.id = personId
    · simp [h]
    · simp [h]

/-- C9: `deleteTag` on a tag that is already archived and (as the
integrity invariant guarantees after a first archive) no longer referenced
is a no-op success: it returns `ok` with the store unchanged. -/
theorem C9_deleteTag_idempotent (s : StoreState) (tagId : String)
    (harch : tagArchivedHere s tagId = true)
    (hrefs : noTagRefs s tagId = true) :
    deleteTag s tagId = Except.ok s := by
  have hrefs' : ∀ p ∈ s.people, tagId ∉ p.tagIds := by
    intro p hp
    have h := List.all_eq_true.mp hrefs p hp
    simpa using h
  have harch' : ∀ t ∈ s.tags, t.id = tagId → t.archived = true := by
    intro t ht hid
    have h := List.all_eq_true.mp harch t ht
    simpa [hid] using h
  have hp : removeTagRefs s.people tagId = s.people := by
    have step : ∀ p ∈ s.people,
        (if tagId ∈ p.tagIds then
          { p with tagIds := p.tagIds.filter (fun t => t != tagId) } else p) = p :=
      fun p hp => if_neg (hrefs' p hp)
    simp only [removeTagRefs]
    rw [List.map_congr_left step]
    exact List.map_id s.people
  have ht : archiveTagRow s.tags tagId = s.tags := by
    have step : ∀ t ∈ s.tags,
        (if t.id = tagId then { t with archived := true } else t) = t := by
      intro t htm
      by_cases h : t.id = tagId
      · rw [if_pos h]
        have := harch' t htm h
        cases t
        simp_all
      · exact if_neg h
    simp only [archiveTagRow]
    rw [List.map_congr_left step]
    exact List.map_id s.tags
  have hstate : deleteTagState s tagId = s := by
    show StoreState.mk (removeTagRefs s.people tagId)
        (archiveTagRow s.tags tagId) s.households s.members = s
    rw [hp, ht]
  show Except.ok (deleteTagState s tagId) = Except.ok s
  rw [hstate]

/-- C9 witness: in store `sC9` the tag `t9` is archived and unreferenced,
and archiving it again returns success with the store unchanged. -/
theorem C9_deleteTag_idempotent_witness :
    tagArchivedHere sC9 "t9" = true
    ∧ noTagRefs sC9 "t9" = true
    ∧ deleteTag sC9 "t9" = Except.ok sC9 :=
  ⟨by decide, by decide, C9_deleteTag_idempotent sC9 "t9" (by decide) (by decide)⟩

end Roster
